import Mathlib

/-!
Shallow embedding of the WasmAMM ink! contract (`src/amm/lib.rs`).

Balances are `u128` in the source; arithmetic overflow panics there, so
a call that would overflow never completes.  We model balances as `ℕ`:
every subtraction performed on the success paths is shown (or checked by
the source's own guards) to be non-underflowing, so `ℕ` truncated
subtraction coincides with the machine subtraction on those paths.

`ink_storage::collections::HashMap` is modelled as an association list on
an opaque, decidable-equality account type (`ℕ`), with the exact
`insert` / `entry().and_modify()` / `entry().and_modify().or_insert()`
semantics of the source: `and_modify` without `or_insert` does nothing
when the key is absent.
-/

namespace WasmAMM

abbrev AccountId := Nat

/-- `PRECISION` constant from the source (precision of 6 digits). -/
def PRECISION : Nat := 1000000

/-- The `Error` enum of the contract. -/
inductive Error where
  | ZeroLiquidity
  | ZeroAmount
  | InsufficientAmount
  | NonEquivalentValue
  | ThresholdNotReached
  | InvalidShare
  | InsufficientLiquidity
  | SlippageExceeded
deriving DecidableEq, Repr

/-- A `HashMap<AccountId, Balance>` as an association list. -/
abbrev BMap := List (AccountId × Nat)

/-- `*map.get(&k).unwrap_or(&0)`: lookup with absence meaning zero. -/
def mapGet (m : BMap) (k : AccountId) : Nat :=
  match m with
  | [] => 0
  | (a, b) :: t => if a = k then b else mapGet t k

/-- The keys of the map (presence of an entry). -/
def mapKeys (m : BMap) : List AccountId :=
  m.map Prod.fst

/-- `map.insert(k, v)`: replace the entry for `k`, or add it. -/
def mapInsert (m : BMap) (k : AccountId) (v : Nat) : BMap :=
  match m with
  | [] => [(k, v)]
  | (a, b) :: t => if a = k then (k, v) :: t else (a, b) :: mapInsert t k v

/-- `map.entry(k).and_modify(f)`: apply `f` to the entry for `k` if it is
present, otherwise leave the map unchanged. -/
def mapModify (m : BMap) (k : AccountId) (f : Nat → Nat) : BMap :=
  match m with
  | [] => []
  | (a, b) :: t => if a = k then (a, f b) :: t else (a, b) :: mapModify t k f

/-- `map.entry(k).and_modify(f).or_insert(v)`. -/
def mapUpsert (m : BMap) (k : AccountId) (f : Nat → Nat) (v : Nat) : BMap :=
  match m with
  | [] => [(k, v)]
  | (a, b) :: t => if a = k then (a, f b) :: t else (a, b) :: mapUpsert t k f v

/-- Sum of all values stored in the map. -/
def mapSum (m : BMap) : Nat :=
  (m.map Prod.snd).sum

/-- The `#[ink(storage)]` struct `Amm`. -/
structure Amm where
  totalShares : Nat := 0
  totalToken1 : Nat := 0
  totalToken2 : Nat := 0
  shares : BMap := []
  token1Balance : BMap := []
  token2Balance : BMap := []
  fees : Nat := 0
deriving DecidableEq, Repr

namespace Amm

/-- `validAmountCheck`: fails with `ZeroAmount` on a zero quantity and
with `InsufficientAmount` when the quantity exceeds the caller's balance
in the given map (absence meaning zero). -/
def validAmountCheck (bal : BMap) (caller : AccountId) (qty : Nat) :
    Except Error Unit :=
  let myBalance := mapGet bal caller
  if qty = 0 then .error .ZeroAmount
  else if myBalance < qty then .error .InsufficientAmount
  else .ok ()

/-- `getK`: the liquidity constant of the pool. -/
def getK (s : Amm) : Nat :=
  s.totalToken1 * s.totalToken2

/-- `activePool`: restricts withdraw and swap until liquidity is added. -/
def activePool (s : Amm) : Except Error Unit :=
  if s.getK = 0 then .error .ZeroLiquidity else .ok ()

/-- Constructor `new(_fees)`: sets fees to zero if not in `[0, 1000)`. -/
def new (f : Nat) : Amm :=
  { fees := if f ≥ 1000 then 0 else f }

/-- `faucet`: sends free tokens to the invoker. -/
def faucet (s : Amm) (caller : AccountId)
    (amountToken1 amountToken2 : Nat) : Amm :=
  let token1 := mapGet s.token1Balance caller
  let token2 := mapGet s.token2Balance caller
  { s with
    token1Balance := mapInsert s.token1Balance caller (token1 + amountToken1),
    token2Balance := mapInsert s.token2Balance caller (token2 + amountToken2) }

/-- `getMyHoldings`. -/
def getMyHoldings (s : Amm) (caller : AccountId) : Nat × Nat × Nat :=
  (mapGet s.token1Balance caller, mapGet s.token2Balance caller,
    mapGet s.shares caller)

/-- `getPoolDetails`. -/
def getPoolDetails (s : Amm) : Nat × Nat × Nat × Nat :=
  (s.totalToken1, s.totalToken2, s.totalShares, s.fees)

/-- The share computation inside `provide` (the `if self.totalShares == 0`
block of the source, hoisted into its own definition). -/
def computeShare (s : Amm) (amountToken1 amountToken2 : Nat) :
    Except Error Nat :=
  if s.totalShares = 0 then
    -- Genesis liquidity is issued 100 Shares
    .ok (100 * PRECISION)
  else
    let share1 := s.totalShares * amountToken1 / s.totalToken1
    let share2 := s.totalShares * amountToken2 / s.totalToken2
    if share1 = share2 then .ok share1
    else .error .NonEquivalentValue

/-- `provide`: adds new liquidity; returns the issued shares together with
the post-call state (the pre-call state on any error). -/
def provide (s : Amm) (caller : AccountId)
    (amountToken1 amountToken2 : Nat) : Except Error Nat × Amm :=
  match validAmountCheck s.token1Balance caller amountToken1 with
  | .error e => (.error e, s)
  | .ok _ =>
    match validAmountCheck s.token2Balance caller amountToken2 with
    | .error e => (.error e, s)
    | .ok _ =>
      match computeShare s amountToken1 amountToken2 with
      | .error e => (.error e, s)
      | .ok share =>
        if share = 0 then (.error .ThresholdNotReached, s)
        else
          let token1 := mapGet s.token1Balance caller
          let token2 := mapGet s.token2Balance caller
          (.ok share,
            { s with
              token1Balance := mapInsert s.token1Balance caller (token1 - amountToken1),
              token2Balance := mapInsert s.token2Balance caller (token2 - amountToken2),
              totalToken1 := s.totalToken1 + amountToken1,
              totalToken2 := s.totalToken2 + amountToken2,
              totalShares := s.totalShares + share,
              shares := mapUpsert s.shares caller (fun v => v + share) share })

/-- `getEquivalentToken1Estimate`. -/
def getEquivalentToken1Estimate (s : Amm) (amountToken2 : Nat) :
    Except Error Nat :=
  match s.activePool with
  | .error e => .error e
  | .ok _ => .ok (s.totalToken1 * amountToken2 / s.totalToken2)

/-- `getEquivalentToken2Estimate`. -/
def getEquivalentToken2Estimate (s : Amm) (amountToken1 : Nat) :
    Except Error Nat :=
  match s.activePool with
  | .error e => .error e
  | .ok _ => .ok (s.totalToken2 * amountToken1 / s.totalToken1)

/-- `getWithdrawEstimate`: pro-rata amounts released for burning a share. -/
def getWithdrawEstimate (s : Amm) (share : Nat) :
    Except Error (Nat × Nat) :=
  match s.activePool with
  | .error e => .error e
  | .ok _ =>
    if share > s.totalShares then .error .InvalidShare
    else
      .ok (share * s.totalToken1 / s.totalShares,
           share * s.totalToken2 / s.totalShares)

/-- `withdraw`: removes liquidity, releasing the estimated amounts. -/
def withdraw (s : Amm) (caller : AccountId) (share : Nat) :
    Except Error (Nat × Nat) × Amm :=
  match validAmountCheck s.shares caller share with
  | .error e => (.error e, s)
  | .ok _ =>
    match s.getWithdrawEstimate share with
    | .error e => (.error e, s)
    | .ok (amountToken1, amountToken2) =>
      (.ok (amountToken1, amountToken2),
        { s with
          shares := mapModify s.shares caller (fun v => v - share),
          totalShares := s.totalShares - share,
          totalToken1 := s.totalToken1 - amountToken1,
          totalToken2 := s.totalToken2 - amountToken2,
          token1Balance := mapModify s.token1Balance caller (fun v => v + amountToken1),
          token2Balance := mapModify s.token2Balance caller (fun v => v + amountToken2) })

/-- `getSwapToken1EstimateGivenToken1`: amount of Token2 received when
swapping the given amount of Token1. -/
def getSwapToken1EstimateGivenToken1 (s : Amm) (amountToken1 : Nat) :
    Except Error Nat :=
  match s.activePool with
  | .error e => .error e
  | .ok _ =>
    -- Adjusting the fees charged
    let amountIn := (1000 - s.fees) * amountToken1 / 1000
    let token1After := s.totalToken1 + amountIn
    let token2After := s.getK / token1After
    let amountToken2 := s.totalToken2 - token2After
    -- To ensure that Token2's pool is not completely depleted
    if amountToken2 = s.totalToken2 then .ok (amountToken2 - 1)
    else .ok amountToken2

/-- `getSwapToken1EstimateGivenToken2`: amount of Token1 to swap to get
the given amount of Token2. -/
def getSwapToken1EstimateGivenToken2 (s : Amm) (amountToken2 : Nat) :
    Except Error Nat :=
  match s.activePool with
  | .error e => .error e
  | .ok _ =>
    if amountToken2 ≥ s.totalToken2 then .error .InsufficientLiquidity
    else
      let token2After := s.totalToken2 - amountToken2
      let token1After := s.getK / token2After
      .ok ((token1After - s.totalToken1) * 1000 / (1000 - s.fees))

/-- `swapToken1GivenToken1`: swaps Token1 for Token2, failing with
`SlippageExceeded` when the quote is below `minToken2`. -/
def swapToken1GivenToken1 (s : Amm) (caller : AccountId)
    (amountToken1 minToken2 : Nat) : Except Error Nat × Amm :=
  match validAmountCheck s.token1Balance caller amountToken1 with
  | .error e => (.error e, s)
  | .ok _ =>
    match s.getSwapToken1EstimateGivenToken1 amountToken1 with
    | .error e => (.error e, s)
    | .ok amountToken2 =>
      if amountToken2 < minToken2 then (.error .SlippageExceeded, s)
      else
        (.ok amountToken2,
          { s with
            token1Balance := mapModify s.token1Balance caller (fun v => v - amountToken1),
            totalToken1 := s.totalToken1 + amountToken1,
            totalToken2 := s.totalToken2 - amountToken2,
            token2Balance := mapModify s.token2Balance caller (fun v => v + amountToken2) })

/-- `swapToken1GivenToken2`: swaps Token1 for a requested amount of
Token2, failing with `SlippageExceeded` when the required input exceeds
`maxToken1`. -/
def swapToken1GivenToken2 (s : Amm) (caller : AccountId)
    (amountToken2 maxToken1 : Nat) : Except Error Nat × Amm :=
  match s.getSwapToken1EstimateGivenToken2 amountToken2 with
  | .error e => (.error e, s)
  | .ok amountToken1 =>
    if amountToken1 > maxToken1 then (.error .SlippageExceeded, s)
    else
      match validAmountCheck s.token1Balance caller amountToken1 with
      | .error e => (.error e, s)
      | .ok _ =>
        (.ok amountToken1,
          { s with
            token1Balance := mapModify s.token1Balance caller (fun v => v - amountToken1),
            totalToken1 := s.totalToken1 + amountToken1,
            totalToken2 := s.totalToken2 - amountToken2,
            token2Balance := mapModify s.token2Balance caller (fun v => v + amountToken2) })

end Amm

/-- States reachable from a freshly constructed pool by any sequence of
`faucet`, `provide`, `withdraw` and swap operations (error calls leave the
state unchanged, so including them is harmless). -/
inductive Reachable : Amm → Prop where
  | init (f : Nat) : Reachable (Amm.new f)
  | faucetStep {s : Amm} (c : AccountId) (a b : Nat) :
      Reachable s → Reachable (s.faucet c a b)
  | provideStep {s : Amm} (c : AccountId) (a b : Nat) :
      Reachable s → Reachable (s.provide c a b).2
  | withdrawStep {s : Amm} (c : AccountId) (sh : Nat) :
      Reachable s → Reachable (s.withdraw c sh).2
  | swap1Step {s : Amm} (c : AccountId) (a m : Nat) :
      Reachable s → Reachable (s.swapToken1GivenToken1 c a m).2
  | swap2Step {s : Amm} (c : AccountId) (b m : Nat) :
      Reachable s → Reachable (s.swapToken1GivenToken2 c b m).2

/-- Spec-side quote formula, written from the spec's words (§4.4): used to
compare the implementation's `getSwapToken1EstimateGivenToken1` against
the specified `quoteAsset2GivenAsset1In`. -/
def specQuoteAsset2GivenAsset1In (s : Amm) (amountIn : Nat) : Nat :=
  let effectiveIn := (1000 - s.fees) * amountIn / 1000
  let asset1After := s.totalToken1 + effectiveIn
  let asset2After := s.totalToken1 * s.totalToken2 / asset1After
  let amountOut := s.totalToken2 - asset2After
  if amountOut = s.totalToken2 then amountOut - 1 else amountOut

/-- Reserve/share coherence: the three pool totals are all zero or all
strictly positive. -/
def poolBalanced (s : Amm) : Prop :=
  (s.totalToken1 = 0 ∧ s.totalToken2 = 0 ∧ s.totalShares = 0) ∨
  (0 < s.totalToken1 ∧ 0 < s.totalToken2 ∧ 0 < s.totalShares)

/-- Share conservation: the entries of the shares map sum to
`totalShares`. -/
def sharesConsistent (s : Amm) : Prop :=
  mapSum s.shares = s.totalShares

/-- Concrete reachable state used to analyse the fee-accrual claim:
`new 1`, then a faucet grant, then genesis liquidity `(1001, 2)`. -/
def feeDropState : Amm :=
  (((Amm.new 1).faucet 0 2001 2).provide 0 1001 2).2

/-- Concrete active pool used to instantiate theorems with hypotheses. -/
def witState : Amm :=
  { totalShares := 100 * PRECISION
    totalToken1 := 1000
    totalToken2 := 1000
    shares := [(0, 100 * PRECISION)]
    token1Balance := [(0, 500), (1, 300)]
    token2Balance := [(0, 20), (1, 0)]
    fees := 3 }

/-- Concrete empty pool whose caller `0` holds positive off-pool balances. -/
def genState : Amm :=
  { token1Balance := [(0, 5)], token2Balance := [(0, 7)] }

/-- Concrete active pool whose caller `1` holds token1 but has no entry at
all in the token2 balance map. -/
def noEntryState : Amm :=
  { totalShares := 100 * PRECISION
    totalToken1 := 1000
    totalToken2 := 1000
    shares := [(0, 100 * PRECISION)]
    token1Balance := [(1, 100)]
    token2Balance := []
    fees := 0 }

/-! ### Association-list lemmas -/

@[simp] lemma mapGet_nil (k : AccountId) : mapGet [] k = 0 := rfl

lemma mapGet_cons (a : AccountId) (b : Nat) (t : BMap) (k : AccountId) :
    mapGet ((a, b) :: t) k = if a = k then b else mapGet t k := rfl

@[simp] lemma mapKeys_nil : mapKeys [] = [] := rfl

@[simp] lemma mapKeys_cons (a : AccountId) (b : Nat) (t : BMap) :
    mapKeys ((a, b) :: t) = a :: mapKeys t := rfl

@[simp] lemma mapSum_nil : mapSum [] = 0 := rfl

@[simp] lemma mapSum_cons (a : AccountId) (b : Nat) (t : BMap) :
    mapSum ((a, b) :: t) = b + mapSum t := by
  simp [mapSum]

lemma mem_mapKeys_of_mapGet_ne_zero {m : BMap} {k : AccountId}
    (h : mapGet m k ≠ 0) : k ∈ mapKeys m := by
  induction m with
  | nil => simp at h
  | cons p t ih =>
    obtain ⟨a, b⟩ := p
    rw [mapGet_cons] at h
    by_cases hak : a = k
    · simp [hak]
    · rw [if_neg hak] at h
      simp [ih h]

lemma mapModify_of_not_mem {m : BMap} {k : AccountId} {f : Nat → Nat}
    (h : k ∉ mapKeys m) : mapModify m k f = m := by
  induction m with
  | nil => rfl
  | cons p t ih =>
    obtain ⟨a, b⟩ := p
    simp only [mapKeys_cons, List.mem_cons, not_or] at h
    have hak : ¬a = k := fun hh => h.1 hh.symm
    simp [mapModify, hak, ih h.2]

lemma mapGet_mapModify_self {m : BMap} {k : AccountId} {f : Nat → Nat}
    (h : k ∈ mapKeys m) : mapGet (mapModify m k f) k = f (mapGet m k) := by
  induction m with
  | nil => simp at h
  | cons p t ih =>
    obtain ⟨a, b⟩ := p
    by_cases hak : a = k
    · simp [mapModify, hak, mapGet_cons]
    · simp only [mapKeys_cons, List.mem_cons] at h
      rcases h with h | h
      · exact absurd h.symm hak
      · simp [mapModify, hak, mapGet_cons, ih h]

lemma mapGet_le_mapSum (m : BMap) (k : AccountId) : mapGet m k ≤ mapSum m := by
  induction m with
  | nil => simp
  | cons p t ih =>
    obtain ⟨a, b⟩ := p
    rw [mapGet_cons, mapSum_cons]
    split
    · omega
    · omega

lemma mapSum_mapUpsert_add (m : BMap) (k : AccountId) (d : Nat) :
    mapSum (mapUpsert m k (fun v => v + d) d) = mapSum m + d := by
  induction m with
  | nil => simp [mapUpsert]
  | cons p t ih =>
    obtain ⟨a, b⟩ := p
    by_cases hak : a = k
    · simp [mapUpsert, hak]
      omega
    · simp [mapUpsert, hak, ih]
      omega

lemma mapSum_mapModify_sub (m : BMap) (k : AccountId) (d : Nat)
    (h : d ≤ mapGet m k) :
    mapSum (mapModify m k (fun v => v - d)) = mapSum m - d := by
  induction m with
  | nil =>
    simp at h
    simp [mapModify, h]
  | cons p t ih =>
    obtain ⟨a, b⟩ := p
    rw [mapGet_cons] at h
    by_cases hak : a = k
    · rw [if_pos hak] at h
      simp [mapModify, hak]
      omega
    · rw [if_neg hak] at h
      have hts := mapGet_le_mapSum t k
      simp [mapModify, hak, ih h]
      omega

/-! ### Helper-function characterizations -/

lemma validAmountCheck_eq_ok_iff (bal : BMap) (c : AccountId) (q : Nat) :
    Amm.validAmountCheck bal c q = Except.ok () ↔ q ≠ 0 ∧ q ≤ mapGet bal c := by
  unfold Amm.validAmountCheck
  by_cases h0 : q = 0 <;> by_cases h1 : mapGet bal c < q <;>
    simp [h0, h1] <;> omega

lemma activePool_eq_ok_iff (s : Amm) :
    s.activePool = Except.ok () ↔ s.getK ≠ 0 := by
  unfold Amm.activePool
  by_cases h : s.getK = 0 <;> simp [h]

lemma getK_pos {s : Amm} (hK : s.getK ≠ 0) :
    0 < s.totalToken1 ∧ 0 < s.totalToken2 := by
  unfold Amm.getK at hK
  rcases Nat.eq_zero_or_pos s.totalToken1 with h1 | h1
  · simp [h1] at hK
  rcases Nat.eq_zero_or_pos s.totalToken2 with h2 | h2
  · simp [h2] at hK
  exact ⟨h1, h2⟩

/-! ### Success characterizations of the operations -/

lemma est1_ok_of_active {s : Amm} (hK : s.getK ≠ 0) (a : Nat) :
    s.getSwapToken1EstimateGivenToken1 a =
      Except.ok (specQuoteAsset2GivenAsset1In s a) := by
  have hap : s.activePool = Except.ok () := (activePool_eq_ok_iff s).mpr hK
  unfold Amm.getSwapToken1EstimateGivenToken1 specQuoteAsset2GivenAsset1In
  rw [hap]
  simp only [Amm.getK]
  by_cases hg :
      s.totalToken2 -
          s.totalToken1 * s.totalToken2 /
            (s.totalToken1 + (1000 - s.fees) * a / 1000) =
        s.totalToken2 <;>
    simp [hg]

lemma est1_ok_inv {s : Amm} {a out : Nat}
    (h : s.getSwapToken1EstimateGivenToken1 a = Except.ok out) :
    s.getK ≠ 0 ∧ out = specQuoteAsset2GivenAsset1In s a := by
  have hK : s.getK ≠ 0 := by
    intro hK0
    have hap : s.activePool = Except.error Error.ZeroLiquidity := by
      unfold Amm.activePool
      simp [hK0]
    unfold Amm.getSwapToken1EstimateGivenToken1 at h
    rw [hap] at h
    simp at h
  refine ⟨hK, ?_⟩
  rw [est1_ok_of_active hK a] at h
  exact (Except.ok.injEq _ _).mp h.symm

lemma specQuote_cases {s : Amm} (hK : s.getK ≠ 0) (a q : Nat)
    (hq : q = s.getK / (s.totalToken1 + (1000 - s.fees) * a / 1000)) :
    (q = 0 ∧ specQuoteAsset2GivenAsset1In s a = s.totalToken2 - 1) ∨
    (0 < q ∧ specQuoteAsset2GivenAsset1In s a = s.totalToken2 - q) := by
  have ht2 : 0 < s.totalToken2 := (getK_pos hK).2
  have hunf : specQuoteAsset2GivenAsset1In s a =
      if s.totalToken2 - q = s.totalToken2 then s.totalToken2 - q - 1
      else s.totalToken2 - q := by
    subst hq
    simp only [specQuoteAsset2GivenAsset1In, Amm.getK]
  by_cases hg : s.totalToken2 - q = s.totalToken2
  · left
    rw [hunf, if_pos hg]
    omega
  · right
    rw [hunf, if_neg hg]
    omega

lemma specQuote_lt {s : Amm} (hK : s.getK ≠ 0) (a : Nat) :
    specQuoteAsset2GivenAsset1In s a < s.totalToken2 := by
  have ht2 : 0 < s.totalToken2 := (getK_pos hK).2
  rcases specQuote_cases hK a _ rfl with ⟨hq, hv⟩ | ⟨hq, hv⟩ <;> rw [hv] <;> omega

lemma est2_ok_inv {s : Amm} {b inA : Nat}
    (h : s.getSwapToken1EstimateGivenToken2 b = Except.ok inA) :
    s.getK ≠ 0 ∧ b < s.totalToken2 ∧
    inA = (s.getK / (s.totalToken2 - b) - s.totalToken1) * 1000 /
      (1000 - s.fees) := by
  unfold Amm.getSwapToken1EstimateGivenToken2 at h
  split at h
  · simp at h
  · rename_i u heq
    cases u
    split at h
    · simp at h
    · rename_i hge
      simp at h
      exact ⟨(activePool_eq_ok_iff s).mp heq, by omega, h.symm⟩

lemma swap1_ok_inv {s : Amm} {c : AccountId} {a m out : Nat}
    (h : (s.swapToken1GivenToken1 c a m).1 = Except.ok out) :
    s.getSwapToken1EstimateGivenToken1 a = Except.ok out ∧
    a ≠ 0 ∧ a ≤ mapGet s.token1Balance c ∧ m ≤ out ∧
    (s.swapToken1GivenToken1 c a m).2 =
      { s with
        token1Balance := mapModify s.token1Balance c (fun v => v - a),
        totalToken1 := s.totalToken1 + a,
        totalToken2 := s.totalToken2 - out,
        token2Balance := mapModify s.token2Balance c (fun v => v + out) } := by
  unfold Amm.swapToken1GivenToken1 at h
  split at h
  · simp at h
  · rename_i u heq1
    cases u
    split at h
    · simp at h
    · rename_i b2 heq2
      split at h
      · simp at h
      · rename_i hlt
        simp at h
        subst h
        have hv := (validAmountCheck_eq_ok_iff s.token1Balance c a).mp heq1
        refine ⟨heq2, hv.1, hv.2, by omega, ?_⟩
        simp only [Amm.swapToken1GivenToken1, heq1, heq2, if_neg hlt]

lemma swap2_ok_inv {s : Amm} {c : AccountId} {b m inA : Nat}
    (h : (s.swapToken1GivenToken2 c b m).1 = Except.ok inA) :
    s.getSwapToken1EstimateGivenToken2 b = Except.ok inA ∧
    inA ≤ m ∧ inA ≠ 0 ∧ inA ≤ mapGet s.token1Balance c ∧
    (s.swapToken1GivenToken2 c b m).2 =
      { s with
        token1Balance := mapModify s.token1Balance c (fun v => v - inA),
        totalToken1 := s.totalToken1 + inA,
        totalToken2 := s.totalToken2 - b,
        token2Balance := mapModify s.token2Balance c (fun v => v + b) } := by
  unfold Amm.swapToken1GivenToken2 at h
  split at h
  · simp at h
  · rename_i a1 heq1
    split at h
    · simp at h
    · rename_i hgt
      split at h
      · simp at h
      · rename_i u heq2
        cases u
        simp at h
        subst h
        have hv := (validAmountCheck_eq_ok_iff s.token1Balance c _).mp heq2
        refine ⟨heq1, by omega, hv.1, hv.2, ?_⟩
        simp only [Amm.swapToken1GivenToken2, heq1, if_neg hgt, heq2]

lemma computeShare_ok_inv {s : Amm} {a b sh : Nat}
    (h : s.computeShare a b = Except.ok sh) :
    (s.totalShares = 0 → sh = 100 * PRECISION) ∧
    (s.totalShares ≠ 0 →
      sh = s.totalShares * a / s.totalToken1 ∧
      s.totalShares * a / s.totalToken1 =
        s.totalShares * b / s.totalToken2) := by
  unfold Amm.computeShare at h
  by_cases h0 : s.totalShares = 0
  · rw [if_pos h0] at h
    simp at h
    exact ⟨fun _ => h.symm, fun hc => absurd h0 hc⟩
  · rw [if_neg h0] at h
    simp only [] at h
    split at h
    · rename_i h12
      simp at h
      exact ⟨fun hc => absurd hc h0, fun _ => ⟨h.symm, h12⟩⟩
    · simp at h

lemma provide_ok_inv {s : Amm} {c : AccountId} {a b sh : Nat}
    (h : (s.provide c a b).1 = Except.ok sh) :
    a ≠ 0 ∧ a ≤ mapGet s.token1Balance c ∧
    b ≠ 0 ∧ b ≤ mapGet s.token2Balance c ∧
    sh ≠ 0 ∧ s.computeShare a b = Except.ok sh ∧
    (s.provide c a b).2 =
      { s with
        token1Balance :=
          mapInsert s.token1Balance c (mapGet s.token1Balance c - a),
        token2Balance :=
          mapInsert s.token2Balance c (mapGet s.token2Balance c - b),
        totalToken1 := s.totalToken1 + a,
        totalToken2 := s.totalToken2 + b,
        totalShares := s.totalShares + sh,
        shares := mapUpsert s.shares c (fun v => v + sh) sh } := by
  unfold Amm.provide at h
  split at h
  · simp at h
  · rename_i u1 heq1
    cases u1
    split at h
    · simp at h
    · rename_i u2 heq2
      cases u2
      split at h
      · simp at h
      · rename_i sh0 heq3
        split at h
        · simp at h
        · rename_i hsh0
          simp at h
          subst h
          have hv1 := (validAmountCheck_eq_ok_iff s.token1Balance c a).mp heq1
          have hv2 := (validAmountCheck_eq_ok_iff s.token2Balance c b).mp heq2
          refine ⟨hv1.1, hv1.2, hv2.1, hv2.2, hsh0, heq3, ?_⟩
          simp only [Amm.provide, heq1, heq2, heq3, if_neg hsh0]

lemma getWithdrawEstimate_ok_inv {s : Amm} {sh a1 a2 : Nat}
    (h : s.getWithdrawEstimate sh = Except.ok (a1, a2)) :
    s.getK ≠ 0 ∧ sh ≤ s.totalShares ∧
    a1 = sh * s.totalToken1 / s.totalShares ∧
    a2 = sh * s.totalToken2 / s.totalShares := by
  unfold Amm.getWithdrawEstimate at h
  split at h
  · simp at h
  · rename_i u heq
    cases u
    split at h
    · simp at h
    · rename_i hgt
      simp at h
      exact ⟨(activePool_eq_ok_iff s).mp heq, by omega, h.1.symm, h.2.symm⟩

lemma withdraw_ok_inv {s : Amm} {c : AccountId} {sh : Nat} {r : Nat × Nat}
    (h : (s.withdraw c sh).1 = Except.ok r) :
    sh ≠ 0 ∧ sh ≤ mapGet s.shares c ∧ s.getK ≠ 0 ∧ sh ≤ s.totalShares ∧
    r = (sh * s.totalToken1 / s.totalShares,
         sh * s.totalToken2 / s.totalShares) ∧
    (s.withdraw c sh).2 =
      { s with
        shares := mapModify s.shares c (fun v => v - sh),
        totalShares := s.totalShares - sh,
        totalToken1 :=
          s.totalToken1 - sh * s.totalToken1 / s.totalShares,
        totalToken2 :=
          s.totalToken2 - sh * s.totalToken2 / s.totalShares,
        token1Balance :=
          mapModify s.token1Balance c
            (fun v => v + sh * s.totalToken1 / s.totalShares),
        token2Balance :=
          mapModify s.token2Balance c
            (fun v => v + sh * s.totalToken2 / s.totalShares) } := by
  unfold Amm.withdraw at h
  split at h
  · simp at h
  · rename_i u heq1
    cases u
    split at h
    · simp at h
    · rename_i a1 a2 heq2
      simp at h
      subst h
      have hv := (validAmountCheck_eq_ok_iff s.shares c sh).mp heq1
      have he := getWithdrawEstimate_ok_inv heq2
      refine ⟨hv.1, hv.2, he.1, he.2.1, by simp [he.2.2.1, he.2.2.2], ?_⟩
      rw [he.2.2.1] at heq2
      rw [he.2.2.2] at heq2
      simp only [Amm.withdraw, heq1, heq2]

/-! ### Failure paths return the state unchanged -/

lemma provide_frame_or_ok (s : Amm) (c : AccountId) (a b : Nat) :
    (∃ v, (s.provide c a b).1 = Except.ok v) ∨ (s.provide c a b).2 = s := by
  unfold Amm.provide
  split
  · exact Or.inr rfl
  · split
    · exact Or.inr rfl
    · split
      · exact Or.inr rfl
      · split
        · exact Or.inr rfl
        · exact Or.inl ⟨_, rfl⟩

lemma withdraw_frame_or_ok (s : Amm) (c : AccountId) (sh : Nat) :
    (∃ v, (s.withdraw c sh).1 = Except.ok v) ∨ (s.withdraw c sh).2 = s := by
  unfold Amm.withdraw
  split
  · exact Or.inr rfl
  · split
    · exact Or.inr rfl
    · exact Or.inl ⟨_, rfl⟩

lemma swap1_frame_or_ok (s : Amm) (c : AccountId) (a m : Nat) :
    (∃ v, (s.swapToken1GivenToken1 c a m).1 = Except.ok v) ∨
    (s.swapToken1GivenToken1 c a m).2 = s := by
  unfold Amm.swapToken1GivenToken1
  split
  · exact Or.inr rfl
  · split
    · exact Or.inr rfl
    · split
      · exact Or.inr rfl
      · exact Or.inl ⟨_, rfl⟩

lemma swap2_frame_or_ok (s : Amm) (c : AccountId) (b m : Nat) :
    (∃ v, (s.swapToken1GivenToken2 c b m).1 = Except.ok v) ∨
    (s.swapToken1GivenToken2 c b m).2 = s := by
  unfold Amm.swapToken1GivenToken2
  split
  · exact Or.inr rfl
  · split
    · exact Or.inr rfl
    · split
      · exact Or.inr rfl
      · exact Or.inl ⟨_, rfl⟩

/-! ### Claim theorems -/

/-- C2: whenever `provide`, `withdraw`, `swapToken1GivenToken1` or
`swapToken1GivenToken2` returns an error, the entire pool state
(`totalToken1`, `totalToken2`, `totalShares`, the shares map, both user
balance maps and `fees`) is exactly the same after the call as before. -/
theorem C2_error_leaves_state_unchanged (s : Amm) (c : AccountId)
    (x y : Nat) (e : Error) :
    ((s.provide c x y).1 = Except.error e → (s.provide c x y).2 = s) ∧
    ((s.withdraw c x).1 = Except.error e → (s.withdraw c x).2 = s) ∧
    ((s.swapToken1GivenToken1 c x y).1 = Except.error e →
      (s.swapToken1GivenToken1 c x y).2 = s) ∧
    ((s.swapToken1GivenToken2 c x y).1 = Except.error e →
      (s.swapToken1GivenToken2 c x y).2 = s) := by
  refine ⟨fun h => ?_, fun h => ?_, fun h => ?_, fun h => ?_⟩
  · rcases provide_frame_or_ok s c x y with ⟨v, hv⟩ | hs
    · rw [hv] at h
      exact absurd h (by simp)
    · exact hs
  · rcases withdraw_frame_or_ok s c x with ⟨v, hv⟩ | hs
    · rw [hv] at h
      exact absurd h (by simp)
    · exact hs
  · rcases swap1_frame_or_ok s c x y with ⟨v, hv⟩ | hs
    · rw [hv] at h
      exact absurd h (by simp)
    · exact hs
  · rcases swap2_frame_or_ok s c x y with ⟨v, hv⟩ | hs
    · rw [hv] at h
      exact absurd h (by simp)
    · exact hs

/-- Witness for C2 at a concrete input: `provide 0 0` fails with
`ZeroAmount` and the state is unchanged. -/
theorem C2_witness : ((Amm.new 5).provide 0 0 0).2 = Amm.new 5 :=
  (C2_error_leaves_state_unchanged (Amm.new 5) 0 0 0 Error.ZeroAmount).1 rfl

/-- C5: on an active pool (`totalToken1 * totalToken2 > 0`, `fees < 1000`)
`getSwapToken1EstimateGivenToken1` returns `Ok` of exactly the spec's
formula (`effectiveIn`, `asset1After`, `asset2After`, `out`, with the
decrement-by-1 guard when `out` equals `totalToken2`), and the returned
amount is strictly below `totalToken2`, so a single successful swap never
leaves `totalToken2` at exactly zero. -/
theorem C5_quote_matches_spec_formula (s : Amm) (a : Nat)
    (hK : 0 < s.totalToken1 * s.totalToken2) (hf : s.fees < 1000) :
    s.getSwapToken1EstimateGivenToken1 a =
      Except.ok (specQuoteAsset2GivenAsset1In s a) ∧
    specQuoteAsset2GivenAsset1In s a < s.totalToken2 := by
  have hK' : s.getK ≠ 0 := by
    unfold Amm.getK
    omega
  exact ⟨est1_ok_of_active hK' a, specQuote_lt hK' a⟩

/-- Witness for C5 at the concrete state `witState`. -/
theorem C5_witness :
    witState.getSwapToken1EstimateGivenToken1 100 =
      Except.ok (specQuoteAsset2GivenAsset1In witState 100) ∧
    specQuoteAsset2GivenAsset1In witState 100 < witState.totalToken2 :=
  C5_quote_matches_spec_formula witState 100 (by decide) (by decide)

/-- C6: on an empty pool (`totalShares = 0`), `provide a b` with positive
affordable amounts succeeds and returns exactly `100 * 1_000_000` shares,
regardless of the values of `a` and `b`. -/
theorem C6_genesis_returns_fixed_shares (s : Amm) (c : AccountId)
    (a b : Nat) (h0 : s.totalShares = 0) (ha : 0 < a) (hb : 0 < b)
    (ha2 : a ≤ mapGet s.token1Balance c)
    (hb2 : b ≤ mapGet s.token2Balance c) :
    (s.provide c a b).1 = Except.ok (100 * 1000000) := by
  have hv1 : Amm.validAmountCheck s.token1Balance c a = Except.ok () :=
    (validAmountCheck_eq_ok_iff _ _ _).mpr ⟨by omega, ha2⟩
  have hv2 : Amm.validAmountCheck s.token2Balance c b = Except.ok () :=
    (validAmountCheck_eq_ok_iff _ _ _).mpr ⟨by omega, hb2⟩
  have hcs : s.computeShare a b = Except.ok (100 * PRECISION) := by
    unfold Amm.computeShare
    rw [if_pos h0]
  simp only [Amm.provide, hv1, hv2, hcs]
  norm_num [PRECISION]

/-- Witness for C6 at the concrete state `genState`. -/
theorem C6_witness : (genState.provide 0 5 7).1 = Except.ok (100 * 1000000) :=
  C6_genesis_returns_fixed_shares genState 0 5 7 rfl (by decide) (by decide)
    (by decide) (by decide)

/-- C7: with `fees < 1000` the two swap quotes never divide by zero: when
`K = 0` both fail with `ZeroLiquidity` before any division, and otherwise
every divisor they use (`totalToken1 + effectiveIn`, the literal `1000`,
`totalToken2 - amountOut` on the path that reaches it, and `1000 - fees`)
is strictly positive. -/
theorem C7_quotes_never_divide_by_zero (s : Amm) (a b : Nat)
    (hf : s.fees < 1000) :
    (s.getK = 0 →
      s.getSwapToken1EstimateGivenToken1 a =
        Except.error Error.ZeroLiquidity ∧
      s.getSwapToken1EstimateGivenToken2 b =
        Except.error Error.ZeroLiquidity) ∧
    (s.getK ≠ 0 →
      0 < s.totalToken1 + (1000 - s.fees) * a / 1000 ∧
      (0 : Nat) < 1000 ∧
      (b < s.totalToken2 → 0 < s.totalToken2 - b) ∧
      0 < 1000 - s.fees) := by
  constructor
  · intro hK0
    have hap : s.activePool = Except.error Error.ZeroLiquidity := by
      unfold Amm.activePool
      simp [hK0]
    constructor
    · simp only [Amm.getSwapToken1EstimateGivenToken1, hap]
    · simp only [Amm.getSwapToken1EstimateGivenToken2, hap]
  · intro hK
    obtain ⟨h1, h2⟩ := getK_pos hK
    exact ⟨by omega, by omega, fun h => by omega, by omega⟩

/-- Witness for C7 at the concrete state `witState`. -/
theorem C7_witness :
    0 < witState.totalToken1 + (1000 - witState.fees) * 40 / 1000 ∧
    (0 : Nat) < 1000 ∧
    (7 < witState.totalToken2 → 0 < witState.totalToken2 - 7) ∧
    0 < 1000 - witState.fees :=
  (C7_quotes_never_divide_by_zero witState 40 7 (by decide)).2 (by decide)

/-- C8: for an active pool (`totalShares > 0`) and `share ≤ totalShares`,
the amounts computed by `getWithdrawEstimate` are bounded by the reserves,
and consequently the reserve decrements performed by `withdraw` are exact
(no underflow): the post-state reserves plus the returned amounts give
back the pre-state reserves. -/
theorem C8_withdraw_never_underflows (s : Amm) (c : AccountId) (sh : Nat)
    (hS : 0 < s.totalShares) (hsh : sh ≤ s.totalShares) :
    (∀ a1 a2, s.getWithdrawEstimate sh = Except.ok (a1, a2) →
      a1 ≤ s.totalToken1 ∧ a2 ≤ s.totalToken2) ∧
    (∀ r, (s.withdraw c sh).1 = Except.ok r →
      (s.withdraw c sh).2.totalToken1 + r.1 = s.totalToken1 ∧
      (s.withdraw c sh).2.totalToken2 + r.2 = s.totalToken2) := by
  have key : ∀ t, sh * t / s.totalShares ≤ t := by
    intro t
    calc sh * t / s.totalShares ≤ s.totalShares * t / s.totalShares :=
          Nat.div_le_div_right (Nat.mul_le_mul_right t hsh)
      _ = t := Nat.mul_div_cancel_left t hS
  constructor
  · intro a1 a2 h
    have he := getWithdrawEstimate_ok_inv h
    rw [he.2.2.1, he.2.2.2]
    exact ⟨key _, key _⟩
  · intro r h
    have hw := withdraw_ok_inv h
    rw [hw.2.2.2.2.2, hw.2.2.2.2.1]
    have k1 := key s.totalToken1
    have k2 := key s.totalToken2
    constructor <;> simp <;> omega

/-- Witness for C8 at the concrete state `witState`: burning half the
shares releases half of each reserve. -/
theorem C8_witness :
    (500 : Nat) ≤ witState.totalToken1 ∧
    (500 : Nat) ≤ witState.totalToken2 :=
  (C8_withdraw_never_underflows witState 0 (50 * PRECISION) (by decide)
    (by decide)).1 500 500 rfl

/-- C9: `new f` stores `fees = 0` when `f ≥ 1000` and `fees = f`
otherwise, so the stored fee always lies in `[0, 1000)`; and no
state-mutating operation (`faucet`, `provide`, `withdraw` or either swap)
ever modifies the `fees` field (the quote operations take the state
immutably in the embedding and cannot modify anything). -/
theorem C9_fees_sanitized_and_immutable (f : Nat) (s : Amm)
    (c : AccountId) (x y : Nat) :
    (Amm.new f).fees = (if 1000 ≤ f then 0 else f) ∧
    (Amm.new f).fees < 1000 ∧
    (s.faucet c x y).fees = s.fees ∧
    ((s.provide c x y).2).fees = s.fees ∧
    ((s.withdraw c x).2).fees = s.fees ∧
    ((s.swapToken1GivenToken1 c x y).2).fees = s.fees ∧
    ((s.swapToken1GivenToken2 c x y).2).fees = s.fees := by
  refine ⟨rfl, ?_, rfl, ?_, ?_, ?_, ?_⟩
  · show (if 1000 ≤ f then 0 else f) < 1000
    split <;> omega
  · rcases provide_frame_or_ok s c x y with ⟨v, hv⟩ | hs
    · rw [(provide_ok_inv hv).2.2.2.2.2.2]
    · rw [hs]
  · rcases withdraw_frame_or_ok s c x with ⟨v, hv⟩ | hs
    · rw [(withdraw_ok_inv hv).2.2.2.2.2]
    · rw [hs]
  · rcases swap1_frame_or_ok s c x y with ⟨v, hv⟩ | hs
    · rw [(swap1_ok_inv hv).2.2.2.2]
    · rw [hs]
  · rcases swap2_frame_or_ok s c x y with ⟨v, hv⟩ | hs
    · rw [(swap2_ok_inv hv).2.2.2.2]
    · rw [hs]

/-- C10: on an active pool with `fees < 1000`, both quotes accept a zero
amount and return `Ok 0`, and consequently `swapToken1GivenToken2 0 maxIn`
fails with `ZeroAmount` for every `maxIn`, because the zero-quantity check
is applied to the computed input amount. -/
theorem C10_zero_quote_and_zero_amount_swap (s : Amm) (c : AccountId)
    (mx : Nat) (hK : 0 < s.totalToken1 * s.totalToken2)
    (hf : s.fees < 1000) :
    s.getSwapToken1EstimateGivenToken1 0 = Except.ok 0 ∧
    s.getSwapToken1EstimateGivenToken2 0 = Except.ok 0 ∧
    (s.swapToken1GivenToken2 c 0 mx).1 = Except.error Error.ZeroAmount := by
  have hK' : s.getK ≠ 0 := by
    unfold Amm.getK
    omega
  obtain ⟨h1, h2⟩ := getK_pos hK'
  have hap : s.activePool = Except.ok () := (activePool_eq_ok_iff s).mpr hK'
  have hsq : specQuoteAsset2GivenAsset1In s 0 = 0 := by
    simp only [specQuoteAsset2GivenAsset1In]
    simp only [Nat.mul_zero, Nat.zero_div, Nat.add_zero,
      Nat.mul_div_cancel_left s.totalToken2 h1, Nat.sub_self]
    rw [if_neg (by omega)]
  have h20 : s.getSwapToken1EstimateGivenToken2 0 = Except.ok 0 := by
    simp only [Amm.getSwapToken1EstimateGivenToken2, hap]
    rw [if_neg (by omega)]
    simp [Amm.getK, Nat.sub_zero, Nat.mul_div_cancel _ h2]
  have hvz : Amm.validAmountCheck s.token1Balance c 0 =
      Except.error Error.ZeroAmount := by
    unfold Amm.validAmountCheck
    simp
  refine ⟨?_, h20, ?_⟩
  · rw [est1_ok_of_active hK' 0, hsq]
  · simp only [Amm.swapToken1GivenToken2, h20]
    rw [if_neg (Nat.not_lt_zero mx)]
    simp only [hvz]

/-- Witness for C10 at the concrete state `witState`. -/
theorem C10_witness :
    witState.getSwapToken1EstimateGivenToken1 0 = Except.ok 0 ∧
    witState.getSwapToken1EstimateGivenToken2 0 = Except.ok 0 ∧
    (witState.swapToken1GivenToken2 5 0 99).1 =
      Except.error Error.ZeroAmount :=
  C10_zero_quote_and_zero_amount_swap witState 5 99 (by decide) (by decide)

/-- C1 (counterexample): at the reachable state `feeDropState`
(`totalToken1 = 1001`, `totalToken2 = 2`, `fees = 1 > 0`), the successful
positive-size swap `swapToken1GivenToken1 1000 0` strictly *decreases*
`K = totalToken1 * totalToken2` (from `2002` to `2001`), refuting the
claimed monotone non-decrease of `K` under positive fees. -/
theorem C1_counterexample :
    Reachable feeDropState ∧ 0 < feeDropState.fees ∧
    (feeDropState.swapToken1GivenToken1 0 1000 0).1 = Except.ok 1 ∧
    (feeDropState.swapToken1GivenToken1 0 1000 0).2.getK <
      feeDropState.getK := by
  refine ⟨?_, by decide, rfl, by decide⟩
  exact Reachable.provideStep 0 1001 2
    (Reachable.faucetStep 0 2001 2 (Reachable.init 1))

/-- C1 (amended): across any successful swap the constant product `K` can
drop below its pre-swap value by integer-rounding noise only: it always
stays strictly above `K - D`, where `D` is the divisor of the quote's
floor division (`totalToken1 + effectiveIn` for `swapToken1GivenToken1`,
`totalToken2 - amountToken2` for `swapToken1GivenToken2`).  Monotone
non-decrease — let alone strict increase — does not hold, as
`C1_counterexample` shows. -/
theorem C1_K_drop_bounded_by_divisor (s : Amm) (c : AccountId)
    (hf : s.fees < 1000) :
    (∀ a m out, (s.swapToken1GivenToken1 c a m).1 = Except.ok out →
      s.getK <
        (s.swapToken1GivenToken1 c a m).2.getK +
          (s.totalToken1 + (1000 - s.fees) * a / 1000)) ∧
    (∀ b m inA, (s.swapToken1GivenToken2 c b m).1 = Except.ok inA →
      s.getK <
        (s.swapToken1GivenToken2 c b m).2.getK + (s.totalToken2 - b)) := by
  constructor
  · intro a m out h
    obtain ⟨hest, ha0, hab, hmo, hst⟩ := swap1_ok_inv h
    obtain ⟨hK, hout⟩ := est1_ok_inv hest
    obtain ⟨ht1, ht2⟩ := getK_pos hK
    set e := (1000 - s.fees) * a / 1000 with he
    have hea : e ≤ a := by
      rw [he]
      calc (1000 - s.fees) * a / 1000 ≤ 1000 * a / 1000 :=
            Nat.div_le_div_right (Nat.mul_le_mul_right a (by omega))
        _ = a := Nat.mul_div_cancel_left a (by norm_num)
    set D := s.totalToken1 + e with hD
    have hDpos : 0 < D := by omega
    set q := s.getK / D with hqdef
    have hqle : q ≤ s.totalToken2 := by
      rw [hqdef]
      have h1 : s.getK / D ≤ s.getK / s.totalToken1 :=
        Nat.div_le_div_left (by omega) ht1
      have h2 : s.getK / s.totalToken1 = s.totalToken2 := by
        simp [Amm.getK, Nat.mul_div_cancel_left _ ht1]
      omega
    obtain ⟨r, hrlt, hreq⟩ :
        ∃ r, r < D ∧ D * q + r = s.totalToken1 * s.totalToken2 := by
      refine ⟨s.getK % D, Nat.mod_lt _ hDpos, ?_⟩
      rw [hqdef]
      have := Nat.div_add_mod s.getK D
      simpa [Amm.getK] using this
    rw [hst]
    rcases specQuote_cases hK a q hqdef with ⟨hq0, hv⟩ | ⟨hqpos, hv⟩
    · rw [hout, hv]
      have hKD : s.totalToken1 * s.totalToken2 < D := by
        have := (Nat.div_eq_zero_iff hDpos).mp (hqdef.symm.trans hq0)
        simpa [Amm.getK] using this
      have hsub : s.totalToken2 - (s.totalToken2 - 1) = 1 := by omega
      simp only [Amm.getK]
      rw [hsub]
      omega
    · rw [hout, hv]
      have hsub : s.totalToken2 - (s.totalToken2 - q) = q := by omega
      simp only [Amm.getK]
      rw [hsub]
      have hDq : D * q ≤ (s.totalToken1 + a) * q :=
        Nat.mul_le_mul_right q (by omega)
      omega
  · intro b m inA h
    obtain ⟨hest, hm, h0, hle, hst⟩ := swap2_ok_inv h
    obtain ⟨hK, hb, hin⟩ := est2_ok_inv hest
    obtain ⟨ht1, ht2⟩ := getK_pos hK
    set d := s.totalToken2 - b with hd
    have hdpos : 0 < d := by omega
    set q := s.getK / d with hqdef
    have hqt1 : s.totalToken1 ≤ q := by
      rw [hqdef]
      have h1 : s.getK / s.totalToken2 ≤ s.getK / d :=
        Nat.div_le_div_left (by omega) hdpos
      have h2 : s.getK / s.totalToken2 = s.totalToken1 := by
        simp [Amm.getK, Nat.mul_div_cancel _ ht2]
      omega
    have hinge : q - s.totalToken1 ≤ inA := by
      rw [hin]
      calc q - s.totalToken1 = (q - s.totalToken1) * 1000 / 1000 :=
            (Nat.mul_div_cancel _ (by norm_num)).symm
        _ ≤ (q - s.totalToken1) * 1000 / (1000 - s.fees) :=
            Nat.div_le_div_left (by omega) (by omega)
    obtain ⟨r, hrlt, hreq⟩ :
        ∃ r, r < d ∧ q * d + r = s.totalToken1 * s.totalToken2 := by
      refine ⟨s.getK % d, Nat.mod_lt _ hdpos, ?_⟩
      rw [hqdef, Nat.mul_comm]
      have := Nat.div_add_mod s.getK d
      simpa [Amm.getK] using this
    rw [hst]
    simp only [Amm.getK]
    have hDq : q * d ≤ (s.totalToken1 + inA) * d :=
      Nat.mul_le_mul_right d (by omega)
    omega

/-- Witness for the amended C1 at the concrete state `witState`: both
swap directions executed on a concrete active pool. -/
theorem C1_witness :
    witState.getK <
      (witState.swapToken1GivenToken1 0 100 0).2.getK +
        (witState.totalToken1 + (1000 - witState.fees) * 100 / 1000) ∧
    witState.getK <
      (witState.swapToken1GivenToken2 0 50 1000).2.getK +
        (witState.totalToken2 - 50) :=
  ⟨(C1_K_drop_bounded_by_divisor witState 0 (by decide)).1 100 0 91 rfl,
   (C1_K_drop_bounded_by_divisor witState 0 (by decide)).2 50 1000 52 rfl⟩

/-- C4 (counterexample): at `noEntryState` the caller `1` holds token1 but
has no entry in the token2 balance map; `swapToken1GivenToken1 100 0`
succeeds returning `91`, yet the caller's token2 balance does **not**
increase by the returned amount (the source's
`entry(caller).and_modify(...)` without `or_insert` silently drops the
credit when the entry is absent). -/
theorem C4_counterexample :
    (noEntryState.swapToken1GivenToken1 1 100 0).1 = Except.ok 91 ∧
    mapGet (noEntryState.swapToken1GivenToken1 1 100 0).2.token2Balance 1 ≠
      mapGet noEntryState.token2Balance 1 + 91 :=
  ⟨rfl, by decide⟩

/-- C4 (amended): whenever `swapToken1GivenToken1 amountIn minOut`
succeeds **and the caller has an entry in the token2 balance map**, the
returned value equals exactly `getSwapToken1EstimateGivenToken1 amountIn`
on the pre-call state, the caller's token1 balance decreases by
`amountIn`, `totalToken1` increases by `amountIn`, `totalToken2` decreases
by the returned amount, and the caller's token2 balance increases by the
returned amount. -/
theorem C4_swap_matches_quote_and_moves_balances (s : Amm) (c : AccountId)
    (a m out : Nat) (hmem : c ∈ mapKeys s.token2Balance)
    (h : (s.swapToken1GivenToken1 c a m).1 = Except.ok out) :
    s.getSwapToken1EstimateGivenToken1 a = Except.ok out ∧
    mapGet (s.swapToken1GivenToken1 c a m).2.token1Balance c + a =
      mapGet s.token1Balance c ∧
    (s.swapToken1GivenToken1 c a m).2.totalToken1 = s.totalToken1 + a ∧
    (s.swapToken1GivenToken1 c a m).2.totalToken2 + out = s.totalToken2 ∧
    mapGet (s.swapToken1GivenToken1 c a m).2.token2Balance c =
      mapGet s.token2Balance c + out := by
  obtain ⟨hest, ha0, hle, hm, hst⟩ := swap1_ok_inv h
  obtain ⟨hK, hout⟩ := est1_ok_inv hest
  have hlt : out < s.totalToken2 := hout ▸ specQuote_lt hK a
  have hmem1 : c ∈ mapKeys s.token1Balance :=
    mem_mapKeys_of_mapGet_ne_zero (by omega)
  rw [hst]
  refine ⟨hest, ?_, rfl, ?_, ?_⟩
  · show mapGet (mapModify s.token1Balance c (fun v => v - a)) c + a =
      mapGet s.token1Balance c
    simp only [mapGet_mapModify_self hmem1]
    omega
  · show s.totalToken2 - out + out = s.totalToken2
    omega
  · show mapGet (mapModify s.token2Balance c (fun v => v + out)) c =
      mapGet s.token2Balance c + out
    simp only [mapGet_mapModify_self hmem]

/-- Witness for the amended C4 at the concrete state `witState` (caller
`0` has a token2 entry). -/
theorem C4_witness :
    witState.getSwapToken1EstimateGivenToken1 100 = Except.ok 91 ∧
    mapGet (witState.swapToken1GivenToken1 0 100 0).2.token1Balance 0 + 100 =
      mapGet witState.token1Balance 0 ∧
    (witState.swapToken1GivenToken1 0 100 0).2.totalToken1 =
      witState.totalToken1 + 100 ∧
    (witState.swapToken1GivenToken1 0 100 0).2.totalToken2 + 91 =
      witState.totalToken2 ∧
    mapGet (witState.swapToken1GivenToken1 0 100 0).2.token2Balance 0 =
      mapGet witState.token2Balance 0 + 91 :=
  C4_swap_matches_quote_and_moves_balances witState 0 100 0 91 (by decide) rfl

/-- C3: every state reachable from a freshly constructed pool by any
sequence of `faucet`, `provide`, `withdraw` and swap operations has
`totalToken1`, `totalToken2`, `totalShares` all zero or all strictly
positive, and the entries of the shares map sum to `totalShares`. -/
theorem C3_reachable_states_balanced_and_share_conserving (s : Amm)
    (h : Reachable s) : poolBalanced s ∧ sharesConsistent s := by
  induction h with
  | init f =>
    exact ⟨Or.inl ⟨rfl, rfl, rfl⟩, rfl⟩
  | faucetStep c a b hr ih =>
    rename_i s'
    exact ih
  | provideStep c a b hr ih =>
    rename_i s'
    rcases provide_frame_or_ok s' c a b with ⟨v, hv⟩ | hs
    · obtain ⟨ha0, hab, hb0, hb2, hv0, hcs, hst⟩ := provide_ok_inv hv
      obtain ⟨hbal, hsum⟩ := ih
      have e1 : (s'.provide c a b).2.totalToken1 = s'.totalToken1 + a := by
        rw [hst]
      have e2 : (s'.provide c a b).2.totalToken2 = s'.totalToken2 + b := by
        rw [hst]
      have e3 : (s'.provide c a b).2.totalShares = s'.totalShares + v := by
        rw [hst]
      have e4 : (s'.provide c a b).2.shares =
          mapUpsert s'.shares c (fun w => w + v) v := by
        rw [hst]
      constructor
      · unfold poolBalanced
        rw [e1, e2, e3]
        omega
      · unfold sharesConsistent
        rw [e4, e3, mapSum_mapUpsert_add, hsum]
    · rw [hs]
      exact ih
  | withdrawStep c sh hr ih =>
    rename_i s'
    rcases withdraw_frame_or_ok s' c sh with ⟨v, hv⟩ | hs
    · obtain ⟨h0, hle, hK, hS, hr2, hst⟩ := withdraw_ok_inv hv
      obtain ⟨hbal, hsum⟩ := ih
      obtain ⟨ht1, ht2⟩ := getK_pos hK
      have hSpos : 0 < s'.totalShares := by
        rcases hbal with ⟨z1, z2, z3⟩ | ⟨p1, p2, p3⟩ <;> omega
      set a1 := sh * s'.totalToken1 / s'.totalShares with hA1
      set a2 := sh * s'.totalToken2 / s'.totalShares with hA2
      have e1 : (s'.withdraw c sh).2.totalToken1 = s'.totalToken1 - a1 := by
        rw [hst]
      have e2 : (s'.withdraw c sh).2.totalToken2 = s'.totalToken2 - a2 := by
        rw [hst]
      have e3 : (s'.withdraw c sh).2.totalShares = s'.totalShares - sh := by
        rw [hst]
      have e4 : (s'.withdraw c sh).2.shares =
          mapModify s'.shares c (fun w => w - sh) := by
        rw [hst]
      constructor
      · unfold poolBalanced
        rw [e1, e2, e3]
        by_cases hshS : sh = s'.totalShares
        · have ha1 : a1 = s'.totalToken1 := by
            rw [hA1, hshS]
            exact Nat.mul_div_cancel_left _ hSpos
          have ha2 : a2 = s'.totalToken2 := by
            rw [hA2, hshS]
            exact Nat.mul_div_cancel_left _ hSpos
          omega
        · have hlt : sh < s'.totalShares := by omega
          have ha1 : a1 < s'.totalToken1 := by
            rw [hA1, Nat.div_lt_iff_lt_mul hSpos]
            calc sh * s'.totalToken1 < s'.totalShares * s'.totalToken1 :=
                  (Nat.mul_lt_mul_right ht1).mpr hlt
              _ = s'.totalToken1 * s'.totalShares := Nat.mul_comm _ _
          have ha2 : a2 < s'.totalToken2 := by
            rw [hA2, Nat.div_lt_iff_lt_mul hSpos]
            calc sh * s'.totalToken2 < s'.totalShares * s'.totalToken2 :=
                  (Nat.mul_lt_mul_right ht2).mpr hlt
              _ = s'.totalToken2 * s'.totalShares := Nat.mul_comm _ _
          omega
      · unfold sharesConsistent
        rw [e4, e3, mapSum_mapModify_sub _ _ _ hle, hsum]
    · rw [hs]
      exact ih
  | swap1Step c a m hr ih =>
    rename_i s'
    rcases swap1_frame_or_ok s' c a m with ⟨v, hv⟩ | hs
    · obtain ⟨hest, ha0, hab, hmo, hst⟩ := swap1_ok_inv hv
      obtain ⟨hK, hout⟩ := est1_ok_inv hest
      obtain ⟨ht1, ht2⟩ := getK_pos hK
      have hlt : v < s'.totalToken2 := hout ▸ specQuote_lt hK a
      obtain ⟨hbal, hsum⟩ := ih
      have hSpos : 0 < s'.totalShares := by
        rcases hbal with ⟨z1, z2, z3⟩ | ⟨p1, p2, p3⟩ <;> omega
      have e1 : (s'.swapToken1GivenToken1 c a m).2.totalToken1 =
          s'.totalToken1 + a := by
        rw [hst]
      have e2 : (s'.swapToken1GivenToken1 c a m).2.totalToken2 =
          s'.totalToken2 - v := by
        rw [hst]
      have e3 : (s'.swapToken1GivenToken1 c a m).2.totalShares =
          s'.totalShares := by
        rw [hst]
      have e4 : (s'.swapToken1GivenToken1 c a m).2.shares = s'.shares := by
        rw [hst]
      constructor
      · unfold poolBalanced
        rw [e1, e2, e3]
        omega
      · unfold sharesConsistent
        rw [e4, e3, hsum]
    · rw [hs]
      exact ih
  | swap2Step c b m hr ih =>
    rename_i s'
    rcases swap2_frame_or_ok s' c b m with ⟨v, hv⟩ | hs
    · obtain ⟨hest, hm2, h02, hle2, hst⟩ := swap2_ok_inv hv
      obtain ⟨hK, hb, hin⟩ := est2_ok_inv hest
      obtain ⟨ht1, ht2⟩ := getK_pos hK
      obtain ⟨hbal, hsum⟩ := ih
      have hSpos : 0 < s'.totalShares := by
        rcases hbal with ⟨z1, z2, z3⟩ | ⟨p1, p2, p3⟩ <;> omega
      have e1 : (s'.swapToken1GivenToken2 c b m).2.totalToken1 =
          s'.totalToken1 + v := by
        rw [hst]
      have e2 : (s'.swapToken1GivenToken2 c b m).2.totalToken2 =
          s'.totalToken2 - b := by
        rw [hst]
      have e3 : (s'.swapToken1GivenToken2 c b m).2.totalShares =
          s'.totalShares := by
        rw [hst]
      have e4 : (s'.swapToken1GivenToken2 c b m).2.shares = s'.shares := by
        rw [hst]
      constructor
      · unfold poolBalanced
        rw [e1, e2, e3]
        omega
      · unfold sharesConsistent
        rw [e4, e3, hsum]
    · rw [hs]
      exact ih

/-- Witness for C3: the invariant at a concretely reached state (one
faucet grant and one genesis provide). -/
theorem C3_witness :
    poolBalanced (((Amm.new 4).faucet 2 30 40).provide 2 30 40).2 ∧
    sharesConsistent (((Amm.new 4).faucet 2 30 40).provide 2 30 40).2 :=
  C3_reachable_states_balanced_and_share_conserving _
    (Reachable.provideStep 2 30 40
      (Reachable.faucetStep 2 30 40 (Reachable.init 4)))

end WasmAMM
